import Mathlib

/-!
# fpvals: extrema accumulator and operand selector

Shallow embedding of `tools/fpvals_dynamorio/fpvals.c`.

* The C type `float` is IEEE-754 binary32.  A value is modelled by its three bit
  fields; the C operators `<` and `>` are the IEEE comparisons: false as soon as
  one side is a NaN, otherwise the order of the represented (extended) real
  numbers, which for binary32 is the order of the sign-magnitude integer
  `F32.key` (both zeros have key `0`).
* The static variables `min_sup`, `max_sub`, `min_sub`, `max_sup` are the fields
  of `State`; `update_values` is a state transformer.
* The instrumentation calls made by `event_app_instruction` (`dr_save_reg`,
  `dr_insert_clean_call`, `fprintf(stderr, ...)`) are collected, in program
  order, in a list of `Emit` values.
* The local arrays `reg_ids[3]` and `mem_ptrs[3]` are declared without an
  initialiser; what they hold before the loop is a parameter.
* The host (DynamoRIO) functions are parameters: `Host` for the selector,
  `dr_safe_read` for the callbacks.
-/

namespace Fpvals

/-! ## The C `float` -/

/-- IEEE-754 binary32 value, given by its sign bit, its 8 exponent bits and its
23 fraction bits. -/
structure F32 where
  sign : Bool
  expo : Fin 256
  frac : Fin 8388608
deriving DecidableEq

namespace F32

/-- A NaN has all exponent bits set and a non-zero fraction. -/
def isNaN (x : F32) : Bool := x.expo.val == 255 && x.frac.val != 0

/-- Magnitude bits (the 31 low bits of the encoding). -/
def mag (x : F32) : Nat := x.expo.val * 8388608 + x.frac.val

/-- Sign-magnitude integer of the encoding.  On non-NaN values it orders the
floats as IEEE-754 does; `+0.0` and `-0.0` both have key `0`, `+inf` has the
greatest key and `-inf` the least. -/
def key (x : F32) : Int := if x.sign then -(x.mag : Int) else (x.mag : Int)

/-- Magnitude of the represented number in units of `2^-150`: a subnormal is
`frac * 2^-149`, a normal number is `(2^23 + frac) * 2^(expo - 150)`; for
`expo = 255` (an infinity) this is a stand-in above every finite magnitude. -/
def scaledMag (x : F32) : Nat :=
  if x.expo.val = 0 then 2 * x.frac.val else (8388608 + x.frac.val) * 2 ^ x.expo.val

/-- The represented number in units of `2^-150`, with its sign. -/
def scaledVal (x : F32) : Int := if x.sign then -(x.scaledMag : Int) else (x.scaledMag : Int)

/-- The represented rational number of a finite float. -/
def toRat (x : F32) : ℚ := (x.scaledVal : ℚ) / 2 ^ 150

/-- The C comparison `a < b` on floats. -/
def lt (a b : F32) : Prop := a.isNaN = false ∧ b.isNaN = false ∧ a.key < b.key

/-- The C comparison `a > b` on floats. -/
def gt (a b : F32) : Prop := a.isNaN = false ∧ b.isNaN = false ∧ b.key < a.key

/-- The C comparison `a <= b` on floats. -/
def le (a b : F32) : Prop := a.isNaN = false ∧ b.isNaN = false ∧ a.key ≤ b.key

/-- The C comparison `a >= b` on floats. -/
def ge (a b : F32) : Prop := a.isNaN = false ∧ b.isNaN = false ∧ b.key ≤ a.key

instance (a b : F32) : Decidable (lt a b) := by unfold lt; infer_instance
instance (a b : F32) : Decidable (gt a b) := by unfold gt; infer_instance
instance (a b : F32) : Decidable (le a b) := by unfold le; infer_instance
instance (a b : F32) : Decidable (ge a b) := by unfold ge; infer_instance

/-- The constant `0.0`. -/
def zero : F32 := ⟨false, 0, 0⟩
/-- The constant `1.0` (bits `0x3F800000`). -/
def one : F32 := ⟨false, 127, 0⟩
/-- The constant `-1.0` (bits `0xBF800000`). -/
def negOne : F32 := ⟨true, 127, 0⟩
/-- The value `+inf` (bits `0x7F800000`). -/
def posInf : F32 := ⟨false, 255, 0⟩
/-- The value `-inf` (bits `0xFF800000`). -/
def negInf : F32 := ⟨true, 255, 0⟩
/-- The default quiet NaN (bits `0x7FC00000`). -/
def qNaN : F32 := ⟨false, 255, 4194304⟩
/-- The float `-5.0` (bits `0xC0A00000`). -/
def negFive : F32 := ⟨true, 129, 2097152⟩
/-- The float `-0.5` (bits `0xBF000000`). -/
def negHalf : F32 := ⟨true, 126, 0⟩
/-- The float `0.5` (bits `0x3F000000`). -/
def half : F32 := ⟨false, 126, 0⟩
/-- The float nearest to `0.3` (bits `0x3E99999A`). -/
def threeTenths : F32 := ⟨false, 125, 1677722⟩
/-- The float nearest to `0.9` (bits `0x3F666666`). -/
def nineTenths : F32 := ⟨false, 126, 6710886⟩
/-- The float `2.0` (bits `0x40000000`). -/
def two : F32 := ⟨false, 128, 0⟩

end F32

/-! ## The accumulator (`fpvals.c`, lines 70-90 and 182-191) -/

/-- The C function `maxf`: `(a > b) ? a : b`. -/
def maxf (a b : F32) : F32 := if F32.gt a b then a else b

/-- The C function `minf`: `(a < b) ? a : b`. -/
def minf (a b : F32) : F32 := if F32.lt a b then a else b

/-- The four static accumulator variables. -/
structure State where
  min_sup : F32
  max_sub : F32
  min_sub : F32
  max_sup : F32
deriving DecidableEq

/-- The static initialisers of the four variables. -/
def State.init : State :=
  { min_sup := F32.negOne, max_sub := F32.negOne, min_sub := F32.one, max_sup := F32.one }

/-- The C function `update_values`, statement by statement. -/
def update_values (s : State) (valf : F32) : State :=
  let s1 : State := { s with min_sup := minf s.min_sup valf }
  let s2 : State := { s1 with max_sup := maxf s1.max_sup valf }
  let s3 : State := if F32.lt valf F32.zero then { s2 with max_sub := maxf s2.max_sub valf } else s2
  let s4 : State := if F32.gt valf F32.zero then { s3 with min_sub := minf s3.min_sub valf } else s3
  s4

/-- A sequence of `update_values` calls, in order. -/
def observeAll (s : State) (vs : List F32) : State := vs.foldl update_values s

/-- Least element of a list of floats for the C order: `r` is one of the elements
and `r <= x` holds for every element `x`. -/
def IsMinOf (r : F32) (S : List F32) : Prop := r ∈ S ∧ ∀ x ∈ S, F32.le r x

/-- Greatest element of a list of floats for the C order. -/
def IsMaxOf (r : F32) (S : List F32) : Prop := r ∈ S ∧ ∀ x ∈ S, F32.ge r x

/-! ## The memory callbacks (`fpvals.c`, lines 211-228, 254-280, 311-346) -/

/-- One line written by `dr_fprintf` to the log file of the current thread: the
slot label that starts the line (`Mem`, `Mem1`, ...) and the float printed by
`%f`; the register columns of a memory line are the fixed text `x x`. -/
structure LogLine where
  label : String
  val : F32
deriving DecidableEq

/-- What a callback can change: the accumulator and the log file of the thread. -/
structure Proc where
  acc : State
  log : List LogLine
deriving DecidableEq

/-- The statements `dr_fprintf(f, "<label> x x %f\n", valf); dr_mutex_lock(..);
update_values(valf); dr_mutex_unlock(..);` shared by the memory callbacks. -/
def log_and_update (label : String) (valf : F32) (p : Proc) : Proc :=
  { acc := update_values p.acc valf, log := p.log ++ [⟨label, valf⟩] }

/-- The C function `callback_fp_mem_1`.  `dr_safe_read addr` is `none` when
`dr_safe_read(addr, sizeof(float), &valf, &nbr)` returns false and `some valf`
otherwise. -/
def callback_fp_mem_1 (dr_safe_read : Nat → Option F32) (mem_ptr_val : Nat) (p : Proc) : Proc :=
  match dr_safe_read mem_ptr_val with
  | none => p
  | some valf => log_and_update "Mem" valf p

/-- The C function `callback_fp_mem_2`. -/
def callback_fp_mem_2 (dr_safe_read : Nat → Option F32) (mem_ptr_val1 mem_ptr_val2 : Nat)
    (p : Proc) : Proc :=
  let p1 := match dr_safe_read mem_ptr_val1 with
    | some valf1 => log_and_update "Mem1" valf1 p
    | none => p
  let p2 := match dr_safe_read mem_ptr_val2 with
    | some valf2 => log_and_update "Mem2" valf2 p1
    | none => p1
  p2

/-- The C function `callback_fp_mem_3`. -/
def callback_fp_mem_3 (dr_safe_read : Nat → Option F32)
    (mem_ptr_val1 mem_ptr_val2 mem_ptr_val3 : Nat) (p : Proc) : Proc :=
  let p1 := match dr_safe_read mem_ptr_val1 with
    | some valf1 => log_and_update "Mem1" valf1 p
    | none => p
  let p2 := match dr_safe_read mem_ptr_val2 with
    | some valf2 => log_and_update "Mem2" valf2 p1
    | none => p1
  let p3 := match dr_safe_read mem_ptr_val3 with
    | some valf3 => log_and_update "Mem3" valf3 p2
    | none => p2
  p3

/-- The log line a slot contributes: one line when its read succeeds, none when
it fails. -/
def slotLine (dr_safe_read : Nat → Option F32) (slot : String × Nat) : Option LogLine :=
  (dr_safe_read slot.2).map (fun valf => ⟨slot.1, valf⟩)

/-! ## The operand selector (`fpvals.c`, lines 348-470) -/

/-- Register identifiers of the host. -/
abbrev reg_id_t := Nat

/-- A source operand, as the selector sees it through the host calls
`opnd_is_reg`, `opnd_get_reg`, `opnd_is_memory_reference` and `opnd_get_addr`
(address `0` is `NULL`). -/
structure opnd_t where
  is_reg : Bool
  reg : reg_id_t
  is_memory_reference : Bool
  addr : Nat
deriving DecidableEq

/-- A decoded instruction: its address, the answer of `instr_is_floating`, and
its source and destination operands. -/
structure instr_t where
  app_pc : Nat
  is_floating : Bool
  srcs : List opnd_t
  dsts : List opnd_t
deriving DecidableEq

/-- The part of `module_data_t` the selector reads: `dr_module_preferred_name`. -/
structure module_data_t where
  preferred_name : List Char
deriving DecidableEq

/-- The host functions the selector calls. -/
structure Host where
  reg_is_pointer_sized : reg_id_t → Bool
  dr_lookup_module : Nat → Option module_data_t

/-- A C array of three elements (`reg_ids[3]`, `mem_ptrs[3]`). -/
structure Array3 where
  a0 : Nat
  a1 : Nat
  a2 : Nat
deriving DecidableEq

/-- Read `a[i]` for `i < 3`. -/
def Array3.get (a : Array3) (i : Nat) : Nat :=
  match i with
  | 0 => a.a0
  | 1 => a.a1
  | _ => a.a2

/-- Write `a[i] = v` for `i < 3` (the selector never writes at another index). -/
def Array3.set (a : Array3) (i : Nat) (v : Nat) : Array3 :=
  match i with
  | 0 => { a with a0 := v }
  | 1 => { a with a1 := v }
  | 2 => { a with a2 := v }
  | _ => a

/-- The elements `a[0..n)`. -/
def Array3.firstN (a : Array3) (n : Nat) : List Nat := [a.a0, a.a1, a.a2].take n

/-- The local variables of `event_app_instruction`. -/
structure Sel where
  reg_ids : Array3
  mem_ptrs : Array3
  n_regs : Nat
  n_mems : Nat
  found : Bool
deriving DecidableEq

/-- The locals at their declaration: the two arrays are not initialised, so they
hold whatever the stack holds (`reg_ids0`, `mem_ptrs0`). -/
def Sel.start (reg_ids0 mem_ptrs0 : Array3) : Sel :=
  { reg_ids := reg_ids0, mem_ptrs := mem_ptrs0, n_regs := 0, n_mems := 0, found := false }

/-- The first test of the loop body. -/
def isRegCapture (host : Host) (src : opnd_t) : Bool :=
  src.is_reg && host.reg_is_pointer_sized src.reg

/-- The second test of the loop body. -/
def isMemCapture (src : opnd_t) : Bool :=
  src.is_memory_reference && src.addr != 0

/-- One iteration of the loop over the source operands. -/
def selectStep (host : Host) (st : Sel) (src : opnd_t) : Sel :=
  let st1 : Sel :=
    if st.n_regs < 3 ∧ isRegCapture host src = true then
      { st with found := true, reg_ids := st.reg_ids.set st.n_regs src.reg,
                n_regs := st.n_regs + 1 }
    else st
  let st2 : Sel :=
    if st1.n_mems < 3 ∧ isMemCapture src = true then
      { st1 with found := true, mem_ptrs := st1.mem_ptrs.set st1.n_mems src.addr,
                 n_mems := st1.n_mems + 1 }
    else st1
  st2

/-- The loop `for (j = 0; j < srcs; j++)`. -/
def selectLoop (host : Host) (st : Sel) (srcs : List opnd_t) : Sel :=
  srcs.foldl (selectStep host) st

/-- The six clean-call targets. -/
inductive Callee
  | callback_fp_reg_1 | callback_fp_reg_2 | callback_fp_reg_3
  | callback_fp_mem_1 | callback_fp_mem_2 | callback_fp_mem_3
deriving DecidableEq

/-- The spill slots used. -/
inductive Slot
  | SPILL_SLOT_11 | SPILL_SLOT_12 | SPILL_SLOT_13
deriving DecidableEq

/-- What `event_app_instruction` emits, all of it placed before the instruction
that follows the analysed one:
`dr_save_reg(drcontext, bb, instr, reg, slot)`,
`dr_insert_clean_call(drcontext, bb, instr, callee, true, n, args...)` and the
two `fprintf(stderr, "Unsupported number of ...: %d\n", n)` diagnostics. -/
inductive Emit
  | save_reg (reg : reg_id_t) (slot : Slot)
  | clean_call (callee : Callee) (args : List Nat)
  | unsupported_regs (n : Nat)
  | unsupported_mems (n : Nat)
deriving DecidableEq

/-- Whether an emitted item is one of the two diagnostics. -/
def Emit.isDiagnostic : Emit → Bool
  | .unsupported_regs _ => true
  | .unsupported_mems _ => true
  | _ => false

/-- The statement `switch (n_regs)`. -/
def switch_n_regs (drcontext : Nat) (st : Sel) : List Emit :=
  match st.n_regs with
  | 0 => []
  | 1 => [.save_reg (st.reg_ids.get 0) .SPILL_SLOT_11,
          .clean_call .callback_fp_reg_1 [drcontext, st.reg_ids.get 0]]
  | 2 => [.save_reg (st.reg_ids.get 0) .SPILL_SLOT_11,
          .save_reg (st.reg_ids.get 1) .SPILL_SLOT_12,
          .clean_call .callback_fp_reg_2 [drcontext, st.reg_ids.get 0, st.reg_ids.get 2]]
  | 3 => [.save_reg (st.reg_ids.get 0) .SPILL_SLOT_11,
          .save_reg (st.reg_ids.get 1) .SPILL_SLOT_12,
          .save_reg (st.reg_ids.get 2) .SPILL_SLOT_13,
          .clean_call .callback_fp_reg_3
            [drcontext, st.reg_ids.get 0, st.reg_ids.get 1, st.reg_ids.get 2]]
  | n => [.unsupported_regs n]

/-- The statement `switch (n_mems)`. -/
def switch_n_mems (drcontext : Nat) (st : Sel) : List Emit :=
  match st.n_mems with
  | 0 => []
  | 1 => [.clean_call .callback_fp_mem_1 [drcontext, st.mem_ptrs.get 0]]
  | 2 => [.clean_call .callback_fp_mem_2 [drcontext, st.mem_ptrs.get 0, st.mem_ptrs.get 2]]
  | 3 => [.clean_call .callback_fp_mem_3
            [drcontext, st.mem_ptrs.get 0, st.mem_ptrs.get 1, st.mem_ptrs.get 2]]
  | n => [.unsupported_mems n]

/-- Whether `needle` starts the string `s`. -/
def startsWith : List Char → List Char → Bool
  | [], _ => true
  | _ :: _, [] => false
  | a :: needle, b :: s => a == b && startsWith needle s

/-- The C function `strstr(haystack, needle)` on strings without their final
NUL: the suffix of `haystack` at the first occurrence of `needle`, or `none`
for `NULL`. -/
def strstr : List Char → List Char → Option (List Char)
  | [], needle => if startsWith needle [] then some [] else none
  | c :: t, needle => if startsWith needle (c :: t) then some (c :: t) else strstr t needle

/-- The string `needle` occurs inside the string `s`. -/
def Occurs (needle s : List Char) : Prop := ∃ pre post, s = pre ++ needle ++ post

/-- The C function `instr_is_fp`: the host's `instr_is_floating`. -/
def instr_is_fp (instr : instr_t) : Bool := instr.is_floating

/-- The statement `if (instr_is_fp(instr)) { ... }` that follows the module test:
the selection loop, then, when `found` is set, the two switches. -/
def analyse (host : Host) (drcontext : Nat) (reg_ids0 mem_ptrs0 : Array3) (instr : instr_t) :
    List Emit :=
  if instr_is_fp instr then
    let st := selectLoop host (Sel.start reg_ids0 mem_ptrs0) instr.srcs
    if st.found then switch_n_regs drcontext st ++ switch_n_mems drcontext st else []
  else []

/-- The C function `event_app_instruction`: the list of what it inserts and
prints (its return value is always `DR_EMIT_DEFAULT`). -/
def event_app_instruction (host : Host) (main_module_name : List Char) (drcontext : Nat)
    (reg_ids0 mem_ptrs0 : Array3) (instr : instr_t) : List Emit :=
  match host.dr_lookup_module instr.app_pc with
  | none => []
  | some module_data =>
    if strstr main_module_name module_data.preferred_name = none then []
    else analyse host drcontext reg_ids0 mem_ptrs0 instr

/-- The source operands the register test accepts, as register identifiers. -/
def regSrcs (host : Host) (instr : instr_t) : List Nat :=
  (instr.srcs.filter (isRegCapture host)).map (fun o => o.reg)

/-- The source operands the memory test accepts, as addresses. -/
def memSrcs (instr : instr_t) : List Nat :=
  (instr.srcs.filter isMemCapture).map (fun o => o.addr)

/-! ## Sample inputs -/

/-- A host in which every register is pointer-sized and every address belongs
to the module called `name`. -/
def sampleHost (name : List Char) : Host :=
  { reg_is_pointer_sized := fun _ => true, dr_lookup_module := fun _ => some ⟨name⟩ }

/-- A register operand. -/
def regOpnd (r : reg_id_t) : opnd_t :=
  { is_reg := true, reg := r, is_memory_reference := false, addr := 0 }

/-- A memory operand with an absolute address. -/
def memOpnd (a : Nat) : opnd_t :=
  { is_reg := false, reg := 0, is_memory_reference := true, addr := a }

/-- A floating-point instruction at address `0x400000` with the given operands. -/
def fpInstr (srcs dsts : List opnd_t) : instr_t :=
  { app_pc := 4194304, is_floating := true, srcs := srcs, dsts := dsts }

/-- The module name `fp`. -/
def nameFp : List Char := ['f', 'p']

/-- The name `foo`. -/
def nameFoo : List Char := ['f', 'o', 'o']

/-- The name `libfoo`. -/
def nameLibfoo : List Char := ['l', 'i', 'b', 'f', 'o', 'o']

/-- A safe read that fails at every address but `0x2000`, where it reads `0.5`. -/
def readOnly2000 (addr : Nat) : Option F32 := if addr = 8192 then some F32.half else none

/-! ## Facts about the float order -/

theorem F32.le_of_not_lt {a b : F32} (ha : a.isNaN = false) (hb : b.isNaN = false)
    (h : ¬ F32.lt a b) : F32.le b a := by
  refine ⟨hb, ha, ?_⟩
  by_contra hc
  exact h ⟨ha, hb, by omega⟩

theorem F32.le_refl_of {a : F32} (ha : a.isNaN = false) : F32.le a a :=
  ⟨ha, ha, le_refl _⟩

theorem F32.le_trans_of {a b c : F32} (h1 : F32.le a b) (h2 : F32.le b c) : F32.le a c :=
  ⟨h1.1, h2.2.1, le_trans h1.2.2 h2.2.2⟩

theorem F32.ge_iff_le (a b : F32) : F32.ge a b ↔ F32.le b a := by
  unfold F32.ge F32.le
  tauto

theorem F32.gt_iff_lt (a b : F32) : F32.gt a b ↔ F32.lt b a := by
  unfold F32.gt F32.lt
  tauto

/-- The magnitude bits order the magnitudes of the represented numbers. -/
theorem F32.scaledMag_lt_of_mag_lt {a b : F32} (h : a.mag < b.mag) :
    a.scaledMag < b.scaledMag := by
  obtain ⟨sa, ⟨e1, he1⟩, ⟨f1, h1⟩⟩ := a
  obtain ⟨sb, ⟨e2, he2⟩, ⟨f2, h2⟩⟩ := b
  unfold F32.mag at h
  unfold F32.scaledMag
  simp only at h ⊢
  have hc : e1 < e2 ∨ (e1 = e2 ∧ f1 < f2) := by omega
  rcases hc with hc | ⟨hc, hf⟩
  · have hne : e2 ≠ 0 := by omega
    rw [if_neg hne]
    have hp : 2 ^ (e1 + 1) ≤ 2 ^ e2 := Nat.pow_le_pow_right (by norm_num) hc
    have hb : 8388608 * 2 ^ (e1 + 1) ≤ (8388608 + f2) * 2 ^ e2 :=
      Nat.mul_le_mul (by omega) hp
    have hpos : 0 < 2 ^ e1 := Nat.pow_pos (by norm_num)
    rw [pow_succ] at hb
    split_ifs with h0
    · subst h0
      simp at hb
      omega
    · have : (8388608 + f1) * 2 ^ e1 < 16777216 * 2 ^ e1 :=
        Nat.mul_lt_mul_of_pos_right (by omega) hpos
      omega
  · subst hc
    have hpos : 0 < 2 ^ e1 := Nat.pow_pos (by norm_num)
    split_ifs with h0
    · omega
    · exact Nat.mul_lt_mul_of_pos_right (by omega) hpos

theorem F32.scaledMag_eq_of_mag_eq {a b : F32} (h : a.mag = b.mag) :
    a.scaledMag = b.scaledMag := by
  obtain ⟨sa, ⟨e1, he1⟩, ⟨f1, h1⟩⟩ := a
  obtain ⟨sb, ⟨e2, he2⟩, ⟨f2, h2⟩⟩ := b
  unfold F32.mag at h
  unfold F32.scaledMag
  simp only at h ⊢
  have hc : e1 = e2 ∧ f1 = f2 := by omega
  rw [hc.1, hc.2]

theorem F32.scaledMag_lt_iff (a b : F32) : a.scaledMag < b.scaledMag ↔ a.mag < b.mag := by
  constructor
  · intro h
    by_contra hc
    rcases Nat.lt_or_eq_of_le (Nat.le_of_not_lt hc) with h2 | h2
    · have := F32.scaledMag_lt_of_mag_lt h2
      omega
    · have := F32.scaledMag_eq_of_mag_eq h2
      omega
  · exact F32.scaledMag_lt_of_mag_lt

/-- The key orders the floats as the represented numbers are ordered. -/
theorem F32.key_lt_iff (a b : F32) : a.key < b.key ↔ a.scaledVal < b.scaledVal := by
  have hab := F32.scaledMag_lt_iff a b
  have hba := F32.scaledMag_lt_iff b a
  have ha0 : 0 < a.scaledMag ↔ 0 < a.mag := by
    have h := F32.scaledMag_lt_iff F32.zero a
    have z1 : F32.zero.scaledMag = 0 := by decide
    have z2 : F32.zero.mag = 0 := by decide
    rw [z1, z2] at h
    exact h
  have hb0 : 0 < b.scaledMag ↔ 0 < b.mag := by
    have h := F32.scaledMag_lt_iff F32.zero b
    have z1 : F32.zero.scaledMag = 0 := by decide
    have z2 : F32.zero.mag = 0 := by decide
    rw [z1, z2] at h
    exact h
  unfold F32.key F32.scaledVal
  cases a.sign <;> cases b.sign <;> simp only [if_true, if_false, Bool.false_eq_true] <;> omega

/-- The C comparison `a < b` holds exactly when neither side is a NaN and the
number represented by `a` is below the number represented by `b`. -/
theorem F32.lt_iff_toRat_lt (a b : F32) :
    F32.lt a b ↔ a.isNaN = false ∧ b.isNaN = false ∧ a.toRat < b.toRat := by
  have hpos : (0 : ℚ) < 2 ^ 150 := by positivity
  unfold F32.lt F32.toRat
  rw [F32.key_lt_iff, div_lt_div_iff_of_pos_right hpos, Int.cast_lt]

/-- The named constants represent the numbers their names say. -/
theorem F32.toRat_constants :
    F32.zero.toRat = 0 ∧ F32.one.toRat = 1 ∧ F32.negOne.toRat = -1 ∧ F32.two.toRat = 2 ∧
    F32.half.toRat = 1 / 2 ∧ F32.negHalf.toRat = -1 / 2 ∧ F32.negFive.toRat = -5 ∧
    F32.threeTenths.toRat = 10066330 / 33554432 ∧ F32.nineTenths.toRat = 15099494 / 16777216 := by
  have h0 : F32.zero.scaledVal = 0 := by decide
  have h1 : F32.one.scaledVal = 1427247692705959881058285969449495136382746624 := by decide
  have h2 : F32.negOne.scaledVal = -1427247692705959881058285969449495136382746624 := by decide
  have h3 : F32.two.scaledVal = 2854495385411919762116571938898990272765493248 := by decide
  have h4 : F32.half.scaledVal = 713623846352979940529142984724747568191373312 := by decide
  have h5 : F32.negHalf.scaledVal = -713623846352979940529142984724747568191373312 := by decide
  have h6 : F32.negFive.scaledVal = -7136238463529799405291429847247475681913733120 := by decide
  have h7 : F32.threeTenths.scaledVal = 428174324825906310364408964003578912503234560 := by decide
  have h8 : F32.nineTenths.scaledVal = 1284522889407127200858611026167084879567650816 := by decide
  unfold F32.toRat
  rw [h0, h1, h2, h3, h4, h5, h6, h7, h8]
  refine ⟨?_, ?_, ?_, ?_, ?_, ?_, ?_, ?_, ?_⟩ <;> norm_num

/-- On non-NaN arguments `minf` returns one of its arguments, below both. -/
theorem minf_spec (a b : F32) (ha : a.isNaN = false) (hb : b.isNaN = false) :
    (minf a b = a ∨ minf a b = b) ∧ (minf a b).isNaN = false ∧
      F32.le (minf a b) a ∧ F32.le (minf a b) b := by
  unfold minf
  by_cases h : F32.lt a b
  · rw [if_pos h]
    exact ⟨Or.inl rfl, ha, F32.le_refl_of ha, ha, hb, le_of_lt h.2.2⟩
  · rw [if_neg h]
    exact ⟨Or.inr rfl, hb, F32.le_of_not_lt ha hb h, F32.le_refl_of hb⟩

/-- On non-NaN arguments `maxf` returns one of its arguments, above both. -/
theorem maxf_spec (a b : F32) (ha : a.isNaN = false) (hb : b.isNaN = false) :
    (maxf a b = a ∨ maxf a b = b) ∧ (maxf a b).isNaN = false ∧
      F32.ge (maxf a b) a ∧ F32.ge (maxf a b) b := by
  unfold maxf
  by_cases h : F32.gt a b
  · rw [if_pos h]
    exact ⟨Or.inl rfl, ha, ⟨ha, ha, le_refl _⟩, ha, hb, le_of_lt h.2.2⟩
  · rw [if_neg h]
    refine ⟨Or.inr rfl, hb, ?_, ⟨hb, hb, le_refl _⟩⟩
    refine ⟨hb, ha, ?_⟩
    by_contra hc
    exact h ⟨ha, hb, by omega⟩

/-- Folding `minf` over non-NaN values from a non-NaN start gives the least of
the start and the values. -/
theorem foldl_minf_isMinOf (vs : List F32) :
    ∀ a : F32, a.isNaN = false → (∀ v ∈ vs, v.isNaN = false) →
      IsMinOf (vs.foldl minf a) (a :: vs) ∧ (vs.foldl minf a).isNaN = false := by
  induction vs with
  | nil =>
    intro a ha _
    exact ⟨⟨List.mem_singleton.mpr rfl, fun x hx => by
      rw [List.mem_singleton.mp hx]; exact F32.le_refl_of ha⟩, ha⟩
  | cons v vs ih =>
    intro a ha hvs
    have hv : v.isNaN = false := hvs v (List.mem_cons_self _ _)
    obtain ⟨hsel, hn, hla, hlv⟩ := minf_spec a v ha hv
    obtain ⟨⟨hmem, hall⟩, hres⟩ :=
      ih (minf a v) hn (fun x hx => hvs x (List.mem_cons_of_mem _ hx))
    rw [List.foldl_cons]
    refine ⟨⟨?_, ?_⟩, hres⟩
    · rcases List.mem_cons.mp hmem with h | h
      · rcases hsel with h2 | h2
        · rw [h, h2]; exact List.mem_cons_self _ _
        · rw [h, h2]; exact List.mem_cons_of_mem _ (List.mem_cons_self _ _)
      · exact List.mem_cons_of_mem _ (List.mem_cons_of_mem _ h)
    · intro x hx
      have hm : F32.le (List.foldl minf (minf a v) vs) (minf a v) :=
        hall _ (List.mem_cons_self _ _)
      rcases List.mem_cons.mp hx with h | h
      · rw [h]; exact F32.le_trans_of hm hla
      · rcases List.mem_cons.mp h with h2 | h2
        · rw [h2]; exact F32.le_trans_of hm hlv
        · exact hall x (List.mem_cons_of_mem _ h2)

/-- Folding `maxf` over non-NaN values from a non-NaN start gives the greatest
of the start and the values. -/
theorem foldl_maxf_isMaxOf (vs : List F32) :
    ∀ a : F32, a.isNaN = false → (∀ v ∈ vs, v.isNaN = false) →
      IsMaxOf (vs.foldl maxf a) (a :: vs) ∧ (vs.foldl maxf a).isNaN = false := by
  induction vs with
  | nil =>
    intro a ha _
    exact ⟨⟨List.mem_singleton.mpr rfl, fun x hx => by
      rw [List.mem_singleton.mp hx]; exact ⟨ha, ha, le_refl _⟩⟩, ha⟩
  | cons v vs ih =>
    intro a ha hvs
    have hv : v.isNaN = false := hvs v (List.mem_cons_self _ _)
    obtain ⟨hsel, hn, hla, hlv⟩ := maxf_spec a v ha hv
    obtain ⟨⟨hmem, hall⟩, hres⟩ :=
      ih (maxf a v) hn (fun x hx => hvs x (List.mem_cons_of_mem _ hx))
    rw [List.foldl_cons]
    have trans : ∀ {p q r : F32}, F32.ge p q → F32.ge q r → F32.ge p r :=
      fun h1 h2 => ⟨h1.1, h2.2.1, le_trans h2.2.2 h1.2.2⟩
    refine ⟨⟨?_, ?_⟩, hres⟩
    · rcases List.mem_cons.mp hmem with h | h
      · rcases hsel with h2 | h2
        · rw [h, h2]; exact List.mem_cons_self _ _
        · rw [h, h2]; exact List.mem_cons_of_mem _ (List.mem_cons_self _ _)
      · exact List.mem_cons_of_mem _ (List.mem_cons_of_mem _ h)
    · intro x hx
      have hm : F32.ge (List.foldl maxf (maxf a v) vs) (maxf a v) :=
        hall _ (List.mem_cons_self _ _)
      rcases List.mem_cons.mp hx with h | h
      · rw [h]; exact trans hm hla
      · rcases List.mem_cons.mp h with h2 | h2
        · rw [h2]; exact trans hm hlv
        · exact hall x (List.mem_cons_of_mem _ h2)

/-! ## The four fields after a sequence of updates -/

theorem update_values_min_sup (s : State) (v : F32) :
    (update_values s v).min_sup = minf s.min_sup v := by
  unfold update_values
  dsimp only
  split_ifs <;> rfl

theorem update_values_max_sup (s : State) (v : F32) :
    (update_values s v).max_sup = maxf s.max_sup v := by
  unfold update_values
  dsimp only
  split_ifs <;> rfl

theorem update_values_max_sub (s : State) (v : F32) :
    (update_values s v).max_sub = if F32.lt v F32.zero then maxf s.max_sub v else s.max_sub := by
  unfold update_values
  dsimp only
  split_ifs <;> rfl

theorem update_values_min_sub (s : State) (v : F32) :
    (update_values s v).min_sub = if F32.gt v F32.zero then minf s.min_sub v else s.min_sub := by
  unfold update_values
  dsimp only
  split_ifs <;> rfl

theorem observeAll_min_sup (vs : List F32) :
    ∀ s : State, (observeAll s vs).min_sup = vs.foldl minf s.min_sup := by
  induction vs with
  | nil => intro s; rfl
  | cons v vs ih =>
    intro s
    have h := ih (update_values s v)
    unfold observeAll at h ⊢
    rw [List.foldl_cons, List.foldl_cons, h, update_values_min_sup]

theorem observeAll_max_sup (vs : List F32) :
    ∀ s : State, (observeAll s vs).max_sup = vs.foldl maxf s.max_sup := by
  induction vs with
  | nil => intro s; rfl
  | cons v vs ih =>
    intro s
    have h := ih (update_values s v)
    unfold observeAll at h ⊢
    rw [List.foldl_cons, List.foldl_cons, h, update_values_max_sup]

theorem observeAll_max_sub (vs : List F32) :
    ∀ s : State, (observeAll s vs).max_sub
      = (vs.filter (fun v => decide (F32.lt v F32.zero))).foldl maxf s.max_sub := by
  induction vs with
  | nil => intro s; rfl
  | cons v vs ih =>
    intro s
    have h := ih (update_values s v)
    unfold observeAll at h ⊢
    rw [List.foldl_cons, h, update_values_max_sub]
    by_cases hv : F32.lt v F32.zero
    · rw [if_pos hv, List.filter_cons_of_pos (by simpa using hv), List.foldl_cons]
    · rw [if_neg hv, List.filter_cons_of_neg (by simpa using hv)]

theorem observeAll_min_sub (vs : List F32) :
    ∀ s : State, (observeAll s vs).min_sub
      = (vs.filter (fun v => decide (F32.gt v F32.zero))).foldl minf s.min_sub := by
  induction vs with
  | nil => intro s; rfl
  | cons v vs ih =>
    intro s
    have h := ih (update_values s v)
    unfold observeAll at h ⊢
    rw [List.foldl_cons, h, update_values_min_sub]
    by_cases hv : F32.gt v F32.zero
    · rw [if_pos hv, List.filter_cons_of_pos (by simpa using hv), List.foldl_cons]
    · rw [if_neg hv, List.filter_cons_of_neg (by simpa using hv)]

/-- A least element of `a :: S` is a least element of `a :: T` when `T` keeps
every element of `S` that is at most `a`. -/
theorem IsMinOf.restrict_min {r a : F32} {S T : List F32} (h : IsMinOf r (a :: S))
    (hTS : ∀ x ∈ T, x ∈ S) (hST : ∀ x ∈ S, F32.le x a → x ∈ T) : IsMinOf r (a :: T) := by
  obtain ⟨hmem, hall⟩ := h
  refine ⟨?_, ?_⟩
  · rcases List.mem_cons.mp hmem with h1 | h1
    · rw [h1]; exact List.mem_cons_self _ _
    · exact List.mem_cons_of_mem _ (hST r h1 (hall a (List.mem_cons_self _ _)))
  · intro x hx
    rcases List.mem_cons.mp hx with h1 | h1
    · rw [h1]; exact hall a (List.mem_cons_self _ _)
    · exact hall x (List.mem_cons_of_mem _ (hTS x h1))

/-- A greatest element of `a :: S` is a greatest element of `a :: T` when `T`
keeps every element of `S` that is at least `a`. -/
theorem IsMaxOf.restrict_max {r a : F32} {S T : List F32} (h : IsMaxOf r (a :: S))
    (hTS : ∀ x ∈ T, x ∈ S) (hST : ∀ x ∈ S, F32.ge x a → x ∈ T) : IsMaxOf r (a :: T) := by
  obtain ⟨hmem, hall⟩ := h
  refine ⟨?_, ?_⟩
  · rcases List.mem_cons.mp hmem with h1 | h1
    · rw [h1]; exact List.mem_cons_self _ _
    · exact List.mem_cons_of_mem _ (hST r h1 (hall a (List.mem_cons_self _ _)))
  · intro x hx
    rcases List.mem_cons.mp hx with h1 | h1
    · rw [h1]; exact hall a (List.mem_cons_self _ _)
    · exact hall x (List.mem_cons_of_mem _ (hTS x h1))

/-- The four fields after folding `update_values` from the initial state over
non-NaN values, each as the extreme of its sentinel and the values its update
rule lets through. -/
theorem observeAll_init_extrema (vs : List F32) (hvs : ∀ v ∈ vs, v.isNaN = false) :
    IsMinOf (observeAll State.init vs).min_sup (F32.negOne :: vs) ∧
    IsMaxOf (observeAll State.init vs).max_sup (F32.one :: vs) ∧
    IsMaxOf (observeAll State.init vs).max_sub
      (F32.negOne :: vs.filter (fun v => decide (F32.lt v F32.zero))) ∧
    IsMinOf (observeAll State.init vs).min_sub
      (F32.one :: vs.filter (fun v => decide (F32.gt v F32.zero))) := by
  rw [observeAll_min_sup, observeAll_max_sup, observeAll_max_sub, observeAll_min_sub]
  refine ⟨?_, ?_, ?_, ?_⟩
  · exact (foldl_minf_isMinOf vs F32.negOne (by decide) hvs).1
  · exact (foldl_maxf_isMaxOf vs F32.one (by decide) hvs).1
  · exact (foldl_maxf_isMaxOf _ F32.negOne (by decide)
      (fun v hv => hvs v (List.mem_filter.mp hv).1)).1
  · exact (foldl_minf_isMinOf _ F32.one (by decide)
      (fun v hv => hvs v (List.mem_filter.mp hv).1)).1

/-! ## C1 and C2: the accumulator contract -/

/-- C1: for every finite sequence `vs` of non-NaN floats (infinities included),
folding `update_values` over `vs` from the initial state gives
`min_sup` = least of `-1.0` and all values (so `min_sup <= v` for every `v`),
`max_sup` = greatest of `1.0` and all values,
`max_sub` = greatest of `-1.0` and the values `v < 0`,
`min_sub` = least of `1.0` and the values `v > 0`;
and `[-5.0, -0.5, 0.3, 2.0]` gives `(-5.0, -0.5, 0.3, 2.0)`. -/
theorem C1_fold_extrema (vs : List F32) (hvs : ∀ v ∈ vs, v.isNaN = false) :
    IsMinOf (observeAll State.init vs).min_sup (F32.negOne :: vs) ∧
    (∀ v ∈ vs, F32.le (observeAll State.init vs).min_sup v) ∧
    IsMaxOf (observeAll State.init vs).max_sup (F32.one :: vs) ∧
    IsMaxOf (observeAll State.init vs).max_sub
      (F32.negOne :: vs.filter (fun v => decide (F32.lt v F32.zero))) ∧
    IsMinOf (observeAll State.init vs).min_sub
      (F32.one :: vs.filter (fun v => decide (F32.gt v F32.zero))) ∧
    observeAll State.init [F32.negFive, F32.negHalf, F32.threeTenths, F32.two]
      = { min_sup := F32.negFive, max_sub := F32.negHalf,
          min_sub := F32.threeTenths, max_sup := F32.two } := by
  obtain ⟨h1, h2, h3, h4⟩ := observeAll_init_extrema vs hvs
  exact ⟨h1, fun v hv => h1.2 v (List.mem_cons_of_mem _ hv), h2, h3, h4, by decide⟩

/-- C1 at the sequence `[-inf, 0.3, +inf]`: the hypothesis holds and the least
and greatest fields are the two infinities. -/
theorem C1_fold_extrema_witness :
    (∀ v ∈ [F32.negInf, F32.threeTenths, F32.posInf], v.isNaN = false) ∧
    IsMinOf (observeAll State.init [F32.negInf, F32.threeTenths, F32.posInf]).min_sup
      (F32.negOne :: [F32.negInf, F32.threeTenths, F32.posInf]) ∧
    (observeAll State.init [F32.negInf, F32.threeTenths, F32.posInf]).min_sup = F32.negInf ∧
    (observeAll State.init [F32.negInf, F32.threeTenths, F32.posInf]).max_sup = F32.posInf :=
  ⟨by decide,
   (C1_fold_extrema [F32.negInf, F32.threeTenths, F32.posInf] (by decide)).1,
   by decide, by decide⟩

/-- C2: for every finite sequence `vs` of non-NaN floats, after folding
`update_values` over `vs` from the initial state each field is the extreme of
its sentinel and the observed values inside the field's own range:
`min_sup` = least of `-1.0` and the `v <= -1`,
`max_sub` = greatest of `-1.0` and the `-1 <= v < 0`,
`min_sub` = least of `1.0` and the `0 < v <= 1`,
`max_sup` = greatest of `1.0` and the `v >= 1`;
so `min_sup <= -1`, `-1 <= max_sub < 0`, `0 < min_sub <= 1`, `max_sup >= 1`;
and `[0.9]` gives `(-1.0, -1.0, 0.9, 1.0)`. -/
theorem C2_fields_in_range (vs : List F32) (hvs : ∀ v ∈ vs, v.isNaN = false) :
    IsMinOf (observeAll State.init vs).min_sup
      (F32.negOne :: vs.filter (fun v => decide (F32.le v F32.negOne))) ∧
    IsMaxOf (observeAll State.init vs).max_sub
      (F32.negOne :: vs.filter (fun v => decide (F32.ge v F32.negOne ∧ F32.lt v F32.zero))) ∧
    IsMinOf (observeAll State.init vs).min_sub
      (F32.one :: vs.filter (fun v => decide (F32.gt v F32.zero ∧ F32.le v F32.one))) ∧
    IsMaxOf (observeAll State.init vs).max_sup
      (F32.one :: vs.filter (fun v => decide (F32.ge v F32.one))) ∧
    F32.le (observeAll State.init vs).min_sup F32.negOne ∧
    (F32.ge (observeAll State.init vs).max_sub F32.negOne ∧
      F32.lt (observeAll State.init vs).max_sub F32.zero) ∧
    (F32.gt (observeAll State.init vs).min_sub F32.zero ∧
      F32.le (observeAll State.init vs).min_sub F32.one) ∧
    F32.ge (observeAll State.init vs).max_sup F32.one ∧
    observeAll State.init [F32.nineTenths]
      = { min_sup := F32.negOne, max_sub := F32.negOne,
          min_sub := F32.nineTenths, max_sup := F32.one } := by
  obtain ⟨h1, h2, h3, h4⟩ := observeAll_init_extrema vs hvs
  have r1 : IsMinOf (observeAll State.init vs).min_sup
      (F32.negOne :: vs.filter (fun v => decide (F32.le v F32.negOne))) :=
    h1.restrict_min (fun x hx => (List.mem_filter.mp hx).1)
      (fun x hx hle => List.mem_filter.mpr ⟨hx, by simpa using hle⟩)
  have r2 : IsMaxOf (observeAll State.init vs).max_sub
      (F32.negOne :: vs.filter (fun v => decide (F32.ge v F32.negOne ∧ F32.lt v F32.zero))) :=
    h3.restrict_max
      (fun x hx => by
        have hx2 := List.mem_filter.mp hx
        have hp : F32.ge x F32.negOne ∧ F32.lt x F32.zero := by simpa using hx2.2
        exact List.mem_filter.mpr ⟨hx2.1, by simpa using hp.2⟩)
      (fun x hx hge => by
        have hx2 := List.mem_filter.mp hx
        have hp : F32.lt x F32.zero := by simpa using hx2.2
        exact List.mem_filter.mpr ⟨hx2.1, by simpa using And.intro hge hp⟩)
  have r3 : IsMinOf (observeAll State.init vs).min_sub
      (F32.one :: vs.filter (fun v => decide (F32.gt v F32.zero ∧ F32.le v F32.one))) :=
    h4.restrict_min
      (fun x hx => by
        have hx2 := List.mem_filter.mp hx
        have hp : F32.gt x F32.zero ∧ F32.le x F32.one := by simpa using hx2.2
        exact List.mem_filter.mpr ⟨hx2.1, by simpa using hp.1⟩)
      (fun x hx hle => by
        have hx2 := List.mem_filter.mp hx
        have hp : F32.gt x F32.zero := by simpa using hx2.2
        exact List.mem_filter.mpr ⟨hx2.1, by simpa using And.intro hp hle⟩)
  have r4 : IsMaxOf (observeAll State.init vs).max_sup
      (F32.one :: vs.filter (fun v => decide (F32.ge v F32.one))) :=
    h2.restrict_max (fun x hx => (List.mem_filter.mp hx).1)
      (fun x hx hge => List.mem_filter.mpr ⟨hx, by simpa using hge⟩)
  have b1 : F32.le (observeAll State.init vs).min_sup F32.negOne :=
    h1.2 _ (List.mem_cons_self _ _)
  have b4 : F32.ge (observeAll State.init vs).max_sup F32.one :=
    h2.2 _ (List.mem_cons_self _ _)
  have b2 : F32.lt (observeAll State.init vs).max_sub F32.zero := by
    rcases List.mem_cons.mp h3.1 with h | h
    · rw [h]; decide
    · simpa using (List.mem_filter.mp h).2
  have b3 : F32.gt (observeAll State.init vs).min_sub F32.zero := by
    rcases List.mem_cons.mp h4.1 with h | h
    · rw [h]; decide
    · simpa using (List.mem_filter.mp h).2
  exact ⟨r1, r2, r3, r4, b1, ⟨h3.2 _ (List.mem_cons_self _ _), b2⟩,
    ⟨b3, h4.2 _ (List.mem_cons_self _ _)⟩, b4, by decide⟩

/-- C2 at the sequence `[-5.0, 0.9, 2.0]`: the hypothesis holds, `-5.0` and
`2.0` reach `min_sup` and `max_sup`, and `max_sub` keeps its sentinel. -/
theorem C2_fields_in_range_witness :
    (∀ v ∈ [F32.negFive, F32.nineTenths, F32.two], v.isNaN = false) ∧
    F32.le (observeAll State.init [F32.negFive, F32.nineTenths, F32.two]).min_sup F32.negOne ∧
    observeAll State.init [F32.negFive, F32.nineTenths, F32.two]
      = { min_sup := F32.negFive, max_sub := F32.negOne,
          min_sub := F32.nineTenths, max_sup := F32.two } :=
  ⟨by decide,
   (C2_fields_in_range [F32.negFive, F32.nineTenths, F32.two] (by decide)).2.2.2.2.1,
   by decide⟩

/-! ## NaN and the order of the observations (C3, C4) -/

/-- Two floats with the same non-zero key are the same float. -/
theorem F32.eq_of_key_eq {a b : F32} (h : a.key = b.key) (h0 : a.key ≠ 0) : a = b := by
  obtain ⟨sa, ⟨ea, hea⟩, ⟨fa, hfa⟩⟩ := a
  obtain ⟨sb, ⟨eb, heb⟩, ⟨fb, hfb⟩⟩ := b
  unfold F32.key F32.mag at h h0
  cases sa <;> cases sb <;> simp at h h0 ⊢ <;> omega

/-- A least element is unique up to the key. -/
theorem IsMinOf.key_eq_min {r r' : F32} {S S' : List F32} (h : IsMinOf r S) (h' : IsMinOf r' S')
    (hS : ∀ x, x ∈ S ↔ x ∈ S') : r.key = r'.key :=
  le_antisymm (h.2 r' ((hS r').mpr h'.1)).2.2 (h'.2 r ((hS r).mp h.1)).2.2

/-- A greatest element is unique up to the key. -/
theorem IsMaxOf.key_eq_max {r r' : F32} {S S' : List F32} (h : IsMaxOf r S) (h' : IsMaxOf r' S')
    (hS : ∀ x, x ∈ S ↔ x ∈ S') : r.key = r'.key :=
  le_antisymm (h'.2 r ((hS r).mp h.1)).2.2 (h.2 r' ((hS r').mpr h'.1)).2.2

/-- On NaN-free observations the final state does not depend on their order. -/
theorem observeAll_perm_of_no_nan (vs vs' : List F32) (hp : vs.Perm vs')
    (hvs : ∀ v ∈ vs, v.isNaN = false) :
    observeAll State.init vs = observeAll State.init vs' := by
  have hvs' : ∀ v ∈ vs', v.isNaN = false := fun v hv => hvs v (hp.mem_iff.mpr hv)
  obtain ⟨a1, a2, a3, a4⟩ := observeAll_init_extrema vs hvs
  obtain ⟨b1, b2, b3, b4⟩ := observeAll_init_extrema vs' hvs'
  have m1 : ∀ (c : F32) (x : F32), x ∈ c :: vs ↔ x ∈ c :: vs' := fun c x => by
    simp only [List.mem_cons, hp.mem_iff]
  have m2 : ∀ (c : F32) (q : F32 → Bool) (x : F32),
      x ∈ c :: vs.filter q ↔ x ∈ c :: vs'.filter q := fun c q x => by
    simp only [List.mem_cons, List.mem_filter, hp.mem_iff]
  have e1 : (observeAll State.init vs).min_sup = (observeAll State.init vs').min_sup := by
    apply F32.eq_of_key_eq (a1.key_eq_min b1 (m1 _))
    have h := (a1.2 F32.negOne (List.mem_cons_self _ _)).2.2
    have hk : F32.negOne.key = -1065353216 := by decide
    omega
  have e2 : (observeAll State.init vs).max_sup = (observeAll State.init vs').max_sup := by
    apply F32.eq_of_key_eq (a2.key_eq_max b2 (m1 _))
    have h := (a2.2 F32.one (List.mem_cons_self _ _)).2.2
    have hk : F32.one.key = 1065353216 := by decide
    omega
  have e3 : (observeAll State.init vs).max_sub = (observeAll State.init vs').max_sub := by
    apply F32.eq_of_key_eq (a3.key_eq_max b3 (m2 _ _))
    have hlt : F32.lt (observeAll State.init vs).max_sub F32.zero := by
      rcases List.mem_cons.mp a3.1 with h | h
      · rw [h]; decide
      · simpa using (List.mem_filter.mp h).2
    have h := hlt.2.2
    have hk : F32.zero.key = 0 := by decide
    omega
  have e4 : (observeAll State.init vs).min_sub = (observeAll State.init vs').min_sub := by
    apply F32.eq_of_key_eq (a4.key_eq_min b4 (m2 _ _))
    have hgt : F32.gt (observeAll State.init vs).min_sub F32.zero := by
      rcases List.mem_cons.mp a4.1 with h | h
      · rw [h]; decide
      · simpa using (List.mem_filter.mp h).2
    have h := hgt.2.2
    have hk : F32.zero.key = 0 := by decide
    omega
  cases hs : observeAll State.init vs
  cases hs' : observeAll State.init vs'
  rw [hs, hs'] at e1 e2 e3 e4
  simp only at e1 e2 e3 e4
  rw [e1, e2, e3, e4]

/-- With a NaN argument `update_values` stores the NaN in `min_sup` and in
`max_sup` and keeps `max_sub` and `min_sub`. -/
theorem update_values_nan (s : State) (v : F32) (hv : v.isNaN = true) :
    update_values s v
      = { min_sup := v, max_sub := s.max_sub, min_sub := s.min_sub, max_sup := v } := by
  have h1 : ∀ x : F32, ¬ F32.lt x v := fun x h => absurd h.2.1 (by simp [hv])
  have h2 : ∀ x : F32, ¬ F32.gt x v := fun x h => absurd h.2.1 (by simp [hv])
  have h3 : ¬ F32.lt v F32.zero := fun h => absurd h.1 (by simp [hv])
  have h4 : ¬ F32.gt v F32.zero := fun h => absurd h.1 (by simp [hv])
  unfold update_values minf maxf
  simp only [if_neg (h1 _), if_neg (h2 _), if_neg h3, if_neg h4]

/-- C3 (the code at the failing input): `update_values` applied to the initial
state with the quiet NaN `0x7FC00000` returns a state whose `min_sup` and
`max_sup` are that NaN, not `-1.0` and `1.0`; `max_sub` and `min_sub` are kept. -/
theorem C3_nan_replaces_min_sup_max_sup :
    update_values State.init F32.qNaN
      = { min_sup := F32.qNaN, max_sub := F32.negOne, min_sub := F32.one, max_sup := F32.qNaN } ∧
    (update_values State.init F32.qNaN).min_sup ≠ State.init.min_sup ∧
    (update_values State.init F32.qNaN).max_sup ≠ State.init.max_sup := by
  decide

/-- C4 (the code at the failing input): the sequences `[NaN, 0.5]` and
`[0.5, NaN]` are permutations of each other and end in different states:
`(0.5, -1.0, 0.5, 0.5)` and `(NaN, -1.0, 0.5, NaN)`. -/
theorem C4_order_matters_with_nan :
    List.Perm [F32.qNaN, F32.half] [F32.half, F32.qNaN] ∧
    observeAll State.init [F32.qNaN, F32.half]
      = { min_sup := F32.half, max_sub := F32.negOne, min_sub := F32.half, max_sup := F32.half } ∧
    observeAll State.init [F32.half, F32.qNaN]
      = { min_sup := F32.qNaN, max_sub := F32.negOne, min_sub := F32.half, max_sup := F32.qNaN } ∧
    observeAll State.init [F32.qNaN, F32.half] ≠ observeAll State.init [F32.half, F32.qNaN] :=
  ⟨List.Perm.swap _ _ _, by decide, by decide, by decide⟩

/-! ## The selection loop -/

theorem Array3.firstN_length (a : Array3) (n : Nat) (hn : n ≤ 3) : (a.firstN n).length = n := by
  unfold Array3.firstN
  rw [List.length_take]
  simp only [List.length_cons, List.length_nil]
  omega

theorem Array3.firstN_set (a : Array3) (n v : Nat) (hn : n < 3) :
    (a.set n v).firstN (n + 1) = a.firstN n ++ [v] := by
  have h : n = 0 ∨ n = 1 ∨ n = 2 := by omega
  rcases h with h | h | h <;> subst h <;> rfl

theorem selectStep_n_regs (host : Host) (st : Sel) (src : opnd_t) :
    (selectStep host st src).n_regs
      = if st.n_regs < 3 ∧ isRegCapture host src = true then st.n_regs + 1 else st.n_regs := by
  unfold selectStep
  dsimp only
  split_ifs <;> rfl

theorem selectStep_reg_ids (host : Host) (st : Sel) (src : opnd_t) :
    (selectStep host st src).reg_ids
      = if st.n_regs < 3 ∧ isRegCapture host src = true then st.reg_ids.set st.n_regs src.reg
        else st.reg_ids := by
  unfold selectStep
  dsimp only
  split_ifs <;> rfl

theorem selectStep_n_mems (host : Host) (st : Sel) (src : opnd_t) :
    (selectStep host st src).n_mems
      = if st.n_mems < 3 ∧ isMemCapture src = true then st.n_mems + 1 else st.n_mems := by
  unfold selectStep
  dsimp only
  split_ifs <;> rfl

theorem selectStep_mem_ptrs (host : Host) (st : Sel) (src : opnd_t) :
    (selectStep host st src).mem_ptrs
      = if st.n_mems < 3 ∧ isMemCapture src = true then st.mem_ptrs.set st.n_mems src.addr
        else st.mem_ptrs := by
  unfold selectStep
  dsimp only
  split_ifs <;> rfl

/-- The loop invariant for the flag `found`. -/
theorem selectStep_found (host : Host) (st : Sel) (src : opnd_t)
    (h : st.found = true ↔ 0 < st.n_regs ∨ 0 < st.n_mems) :
    (selectStep host st src).found = true
      ↔ 0 < (selectStep host st src).n_regs ∨ 0 < (selectStep host st src).n_mems := by
  unfold selectStep
  dsimp only
  split_ifs
  · simp
  · simp
  · simp
  · exact h

theorem take_three_append_of_length {l : List Nat} (hl : l.length = 3) (r : List Nat) :
    (l ++ r).take 3 = l := by
  rw [List.take_append_of_le_length (by omega), List.take_of_length_le (by omega)]

/-- The register half of the loop: counter and recorded prefix. -/
theorem selectLoop_regs (host : Host) (srcs : List opnd_t) :
    ∀ st : Sel, st.n_regs ≤ 3 →
      (selectLoop host st srcs).n_regs
          = min 3 (st.n_regs + (srcs.filter (isRegCapture host)).length) ∧
      (selectLoop host st srcs).reg_ids.firstN (selectLoop host st srcs).n_regs
          = (st.reg_ids.firstN st.n_regs
              ++ (srcs.filter (isRegCapture host)).map (fun o => o.reg)).take 3 := by
  induction srcs with
  | nil =>
    intro st hst
    refine ⟨by simp [selectLoop]; omega, ?_⟩
    simp only [selectLoop, List.foldl_nil, List.filter_nil, List.map_nil, List.append_nil]
    rw [List.take_of_length_le (by rw [Array3.firstN_length _ _ hst]; exact hst)]
  | cons src srcs ih =>
    intro st hst
    have hstep : selectLoop host st (src :: srcs) = selectLoop host (selectStep host st src) srcs :=
      rfl
    rw [hstep]
    by_cases hc : isRegCapture host src = true
    · rw [List.filter_cons_of_pos hc]
      by_cases hn : st.n_regs < 3
      · have h1 : (selectStep host st src).n_regs = st.n_regs + 1 := by
          rw [selectStep_n_regs, if_pos ⟨hn, hc⟩]
        have h2 : (selectStep host st src).reg_ids = st.reg_ids.set st.n_regs src.reg := by
          rw [selectStep_reg_ids, if_pos ⟨hn, hc⟩]
        obtain ⟨i1, i2⟩ := ih (selectStep host st src) (by omega)
        rw [i2, i1, h1, h2, Array3.firstN_set _ _ _ hn]
        refine ⟨by simp only [List.length_cons]; omega, ?_⟩
        simp only [List.map_cons, List.append_assoc, List.singleton_append]
      · have h1 : (selectStep host st src).n_regs = st.n_regs := by
          rw [selectStep_n_regs, if_neg (fun h => hn h.1)]
        have h2 : (selectStep host st src).reg_ids = st.reg_ids := by
          rw [selectStep_reg_ids, if_neg (fun h => hn h.1)]
        obtain ⟨i1, i2⟩ := ih (selectStep host st src) (by omega)
        rw [i2, i1, h1, h2]
        have h3 : st.n_regs = 3 := by omega
        have hl : (st.reg_ids.firstN st.n_regs).length = 3 := by
          rw [Array3.firstN_length _ _ hst]; exact h3
        refine ⟨by simp only [List.length_cons]; omega, ?_⟩
        rw [take_three_append_of_length hl, take_three_append_of_length hl]
    · rw [List.filter_cons_of_neg hc]
      have h1 : (selectStep host st src).n_regs = st.n_regs := by
        rw [selectStep_n_regs, if_neg (fun h => hc h.2)]
      have h2 : (selectStep host st src).reg_ids = st.reg_ids := by
        rw [selectStep_reg_ids, if_neg (fun h => hc h.2)]
      obtain ⟨i1, i2⟩ := ih (selectStep host st src) (by omega)
      rw [i2, i1, h1, h2]
      exact ⟨rfl, rfl⟩

/-- The memory half of the loop: counter and recorded prefix. -/
theorem selectLoop_mems (host : Host) (srcs : List opnd_t) :
    ∀ st : Sel, st.n_mems ≤ 3 →
      (selectLoop host st srcs).n_mems
          = min 3 (st.n_mems + (srcs.filter isMemCapture).length) ∧
      (selectLoop host st srcs).mem_ptrs.firstN (selectLoop host st srcs).n_mems
          = (st.mem_ptrs.firstN st.n_mems
              ++ (srcs.filter isMemCapture).map (fun o => o.addr)).take 3 := by
  induction srcs with
  | nil =>
    intro st hst
    refine ⟨by simp [selectLoop]; omega, ?_⟩
    simp only [selectLoop, List.foldl_nil, List.filter_nil, List.map_nil, List.append_nil]
    rw [List.take_of_length_le (by rw [Array3.firstN_length _ _ hst]; exact hst)]
  | cons src srcs ih =>
    intro st hst
    have hstep : selectLoop host st (src :: srcs) = selectLoop host (selectStep host st src) srcs :=
      rfl
    rw [hstep]
    by_cases hc : isMemCapture src = true
    · rw [List.filter_cons_of_pos hc]
      by_cases hn : st.n_mems < 3
      · have h1 : (selectStep host st src).n_mems = st.n_mems + 1 := by
          rw [selectStep_n_mems, if_pos ⟨hn, hc⟩]
        have h2 : (selectStep host st src).mem_ptrs = st.mem_ptrs.set st.n_mems src.addr := by
          rw [selectStep_mem_ptrs, if_pos ⟨hn, hc⟩]
        obtain ⟨i1, i2⟩ := ih (selectStep host st src) (by omega)
        rw [i2, i1, h1, h2, Array3.firstN_set _ _ _ hn]
        refine ⟨by simp only [List.length_cons]; omega, ?_⟩
        simp only [List.map_cons, List.append_assoc, List.singleton_append]
      · have h1 : (selectStep host st src).n_mems = st.n_mems := by
          rw [selectStep_n_mems, if_neg (fun h => hn h.1)]
        have h2 : (selectStep host st src).mem_ptrs = st.mem_ptrs := by
          rw [selectStep_mem_ptrs, if_neg (fun h => hn h.1)]
        obtain ⟨i1, i2⟩ := ih (selectStep host st src) (by omega)
        rw [i2, i1, h1, h2]
        have h3 : st.n_mems = 3 := by omega
        have hl : (st.mem_ptrs.firstN st.n_mems).length = 3 := by
          rw [Array3.firstN_length _ _ hst]; exact h3
        refine ⟨by simp only [List.length_cons]; omega, ?_⟩
        rw [take_three_append_of_length hl, take_three_append_of_length hl]
    · rw [List.filter_cons_of_neg hc]
      have h1 : (selectStep host st src).n_mems = st.n_mems := by
        rw [selectStep_n_mems, if_neg (fun h => hc h.2)]
      have h2 : (selectStep host st src).mem_ptrs = st.mem_ptrs := by
        rw [selectStep_mem_ptrs, if_neg (fun h => hc h.2)]
      obtain ⟨i1, i2⟩ := ih (selectStep host st src) (by omega)
      rw [i2, i1, h1, h2]
      exact ⟨rfl, rfl⟩

/-- The flag `found` after the loop. -/
theorem selectLoop_found (host : Host) (srcs : List opnd_t) :
    ∀ st : Sel, (st.found = true ↔ 0 < st.n_regs ∨ 0 < st.n_mems) →
      ((selectLoop host st srcs).found = true
        ↔ 0 < (selectLoop host st srcs).n_regs ∨ 0 < (selectLoop host st srcs).n_mems) := by
  induction srcs with
  | nil => intro st h; exact h
  | cons src srcs ih =>
    intro st h
    exact ih (selectStep host st src) (selectStep_found host st src h)

/-- The locals after the loop, from their declaration. -/
theorem selectLoop_start (host : Host) (reg_ids0 mem_ptrs0 : Array3) (instr : instr_t) :
    (selectLoop host (Sel.start reg_ids0 mem_ptrs0) instr.srcs).n_regs
        = min 3 (regSrcs host instr).length ∧
    (selectLoop host (Sel.start reg_ids0 mem_ptrs0) instr.srcs).reg_ids.firstN
        (selectLoop host (Sel.start reg_ids0 mem_ptrs0) instr.srcs).n_regs
        = (regSrcs host instr).take 3 ∧
    (selectLoop host (Sel.start reg_ids0 mem_ptrs0) instr.srcs).n_mems
        = min 3 (memSrcs instr).length ∧
    (selectLoop host (Sel.start reg_ids0 mem_ptrs0) instr.srcs).mem_ptrs.firstN
        (selectLoop host (Sel.start reg_ids0 mem_ptrs0) instr.srcs).n_mems
        = (memSrcs instr).take 3 ∧
    ((selectLoop host (Sel.start reg_ids0 mem_ptrs0) instr.srcs).found = true
        ↔ regSrcs host instr ≠ [] ∨ memSrcs instr ≠ []) := by
  obtain ⟨r1, r2⟩ := selectLoop_regs host instr.srcs (Sel.start reg_ids0 mem_ptrs0)
    (by simp [Sel.start])
  obtain ⟨m1, m2⟩ := selectLoop_mems host instr.srcs (Sel.start reg_ids0 mem_ptrs0)
    (by simp [Sel.start])
  have f := selectLoop_found host instr.srcs (Sel.start reg_ids0 mem_ptrs0)
    (by simp [Sel.start])
  have hr : (Sel.start reg_ids0 mem_ptrs0).n_regs = 0 := rfl
  have hm : (Sel.start reg_ids0 mem_ptrs0).n_mems = 0 := rfl
  have er : (Sel.start reg_ids0 mem_ptrs0).reg_ids.firstN 0 = [] := rfl
  have em : (Sel.start reg_ids0 mem_ptrs0).mem_ptrs.firstN 0 = [] := rfl
  rw [hr, Nat.zero_add] at r1
  rw [hm, Nat.zero_add] at m1
  rw [hr, er, List.nil_append] at r2
  rw [hm, em, List.nil_append] at m2
  have lr : (regSrcs host instr).length = (instr.srcs.filter (isRegCapture host)).length := by
    simp [regSrcs]
  have lm : (memSrcs instr).length = (instr.srcs.filter isMemCapture).length := by
    simp [memSrcs]
  refine ⟨by rw [r1, lr], r2, by rw [m1, lm], m2, ?_⟩
  rw [f, r1, m1, ← lr, ← lm]
  rw [← List.length_pos, ← List.length_pos]
  constructor <;> intro h <;> rcases h with h | h <;> [left; right; left; right] <;> omega

/-! ## What `event_app_instruction` emits -/

theorem event_app_instruction_of_match (host : Host) (main_module_name : List Char)
    (drcontext : Nat) (reg_ids0 mem_ptrs0 : Array3) (instr : instr_t) (md : module_data_t)
    (hmod : host.dr_lookup_module instr.app_pc = some md)
    (hname : strstr main_module_name md.preferred_name ≠ none) :
    event_app_instruction host main_module_name drcontext reg_ids0 mem_ptrs0 instr
      = analyse host drcontext reg_ids0 mem_ptrs0 instr := by
  unfold event_app_instruction
  rw [hmod]
  exact if_neg hname

/-- Everything emitted comes from `analyse`. -/
theorem event_app_instruction_subset (host : Host) (main_module_name : List Char)
    (drcontext : Nat) (reg_ids0 mem_ptrs0 : Array3) (instr : instr_t) (e : Emit)
    (he : e ∈ event_app_instruction host main_module_name drcontext reg_ids0 mem_ptrs0 instr) :
    e ∈ analyse host drcontext reg_ids0 mem_ptrs0 instr := by
  unfold event_app_instruction at he
  cases hmod : host.dr_lookup_module instr.app_pc with
  | none => rw [hmod] at he; exact absurd he (List.not_mem_nil _)
  | some md =>
    rw [hmod] at he
    dsimp only at he
    split_ifs at he
    · exact absurd he (List.not_mem_nil _)
    · exact he

theorem analyse_of_found (host : Host) (drcontext : Nat) (reg_ids0 mem_ptrs0 : Array3)
    (instr : instr_t) (hfp : instr.is_floating = true)
    (hf : regSrcs host instr ≠ [] ∨ memSrcs instr ≠ []) :
    analyse host drcontext reg_ids0 mem_ptrs0 instr
      = switch_n_regs drcontext (selectLoop host (Sel.start reg_ids0 mem_ptrs0) instr.srcs)
        ++ switch_n_mems drcontext (selectLoop host (Sel.start reg_ids0 mem_ptrs0) instr.srcs) := by
  have hfound := (selectLoop_start host reg_ids0 mem_ptrs0 instr).2.2.2.2.mpr hf
  unfold analyse
  rw [if_pos (show instr_is_fp instr = true from hfp)]
  dsimp only
  rw [if_pos hfound]

theorem analyse_of_not_found (host : Host) (drcontext : Nat) (reg_ids0 mem_ptrs0 : Array3)
    (instr : instr_t) (hr : regSrcs host instr = []) (hm : memSrcs instr = []) :
    analyse host drcontext reg_ids0 mem_ptrs0 instr = [] := by
  have hiff := (selectLoop_start host reg_ids0 mem_ptrs0 instr).2.2.2.2
  have hfound : ¬ (selectLoop host (Sel.start reg_ids0 mem_ptrs0) instr.srcs).found = true :=
    fun h => by
      rcases hiff.mp h with h1 | h1
      · exact h1 hr
      · exact h1 hm
  unfold analyse
  dsimp only
  rw [if_neg hfound]
  split_ifs <;> rfl

theorem switch_n_regs_no_diagnostic (drcontext : Nat) (st : Sel) (h : st.n_regs ≤ 3) :
    ∀ e ∈ switch_n_regs drcontext st, e.isDiagnostic = false := by
  have hc : st.n_regs = 0 ∨ st.n_regs = 1 ∨ st.n_regs = 2 ∨ st.n_regs = 3 := by omega
  unfold switch_n_regs
  rcases hc with hc | hc | hc | hc <;> rw [hc] <;> simp [Emit.isDiagnostic]

theorem switch_n_mems_no_diagnostic (drcontext : Nat) (st : Sel) (h : st.n_mems ≤ 3) :
    ∀ e ∈ switch_n_mems drcontext st, e.isDiagnostic = false := by
  have hc : st.n_mems = 0 ∨ st.n_mems = 1 ∨ st.n_mems = 2 ∨ st.n_mems = 3 := by omega
  unfold switch_n_mems
  rcases hc with hc | hc | hc | hc <;> rw [hc] <;> simp [Emit.isDiagnostic]

theorem analyse_no_diagnostic (host : Host) (drcontext : Nat) (reg_ids0 mem_ptrs0 : Array3)
    (instr : instr_t) :
    ∀ e ∈ analyse host drcontext reg_ids0 mem_ptrs0 instr, e.isDiagnostic = false := by
  obtain ⟨r1, _, m1, _, _⟩ := selectLoop_start host reg_ids0 mem_ptrs0 instr
  intro e he
  unfold analyse at he
  dsimp only at he
  split_ifs at he
  · rcases List.mem_append.mp he with h | h
    · exact switch_n_regs_no_diagnostic drcontext _ (by rw [r1]; omega) e h
    · exact switch_n_mems_no_diagnostic drcontext _ (by rw [m1]; omega) e h
  · exact absurd he (List.not_mem_nil _)
  · exact absurd he (List.not_mem_nil _)

theorem switch_n_regs_three (drcontext : Nat) (st : Sel) (a b c : Nat) (hn : st.n_regs = 3)
    (hids : st.reg_ids.firstN st.n_regs = [a, b, c]) :
    switch_n_regs drcontext st
      = [.save_reg a .SPILL_SLOT_11, .save_reg b .SPILL_SLOT_12, .save_reg c .SPILL_SLOT_13,
         .clean_call .callback_fp_reg_3 [drcontext, a, b, c]] := by
  rw [hn] at hids
  have h3 : st.reg_ids.firstN 3 = [st.reg_ids.a0, st.reg_ids.a1, st.reg_ids.a2] := rfl
  rw [h3] at hids
  injection hids with e0 t0
  injection t0 with e1 t1
  injection t1 with e2 _
  unfold switch_n_regs
  rw [hn]
  simp only [Array3.get, e0, e1, e2]

theorem switch_n_mems_three (drcontext : Nat) (st : Sel) (a b c : Nat) (hn : st.n_mems = 3)
    (hptrs : st.mem_ptrs.firstN st.n_mems = [a, b, c]) :
    switch_n_mems drcontext st = [.clean_call .callback_fp_mem_3 [drcontext, a, b, c]] := by
  rw [hn] at hptrs
  have h3 : st.mem_ptrs.firstN 3 = [st.mem_ptrs.a0, st.mem_ptrs.a1, st.mem_ptrs.a2] := rfl
  rw [h3] at hptrs
  injection hptrs with e0 t0
  injection t0 with e1 t1
  injection t1 with e2 _
  unfold switch_n_mems
  rw [hn]
  simp only [Array3.get, e0, e1, e2]

/-! ## C5: which operands the selection loop records -/

/-- C5: after the selection loop of `event_app_instruction`, `reg_ids[0..n_regs)`
holds the first `min(3, k)` source operands that are pointer-sized registers, in
encounter order, and `mem_ptrs[0..n_mems)` the first `min(3, m)` source operands
that are memory references with a non-null address; each quota depends on its own
kind only; destination operands do not change what is emitted; a floating-point
instruction of the target module with no such source operand, and any instruction
that is not floating-point, emits nothing. -/
theorem C5_selection_loop (host : Host) (main_module_name : List Char) (drcontext : Nat)
    (reg_ids0 mem_ptrs0 : Array3) (instr : instr_t) :
    (selectLoop host (Sel.start reg_ids0 mem_ptrs0) instr.srcs).n_regs
        = min 3 (regSrcs host instr).length ∧
    (selectLoop host (Sel.start reg_ids0 mem_ptrs0) instr.srcs).reg_ids.firstN
        (selectLoop host (Sel.start reg_ids0 mem_ptrs0) instr.srcs).n_regs
        = (regSrcs host instr).take 3 ∧
    (selectLoop host (Sel.start reg_ids0 mem_ptrs0) instr.srcs).n_mems
        = min 3 (memSrcs instr).length ∧
    (selectLoop host (Sel.start reg_ids0 mem_ptrs0) instr.srcs).mem_ptrs.firstN
        (selectLoop host (Sel.start reg_ids0 mem_ptrs0) instr.srcs).n_mems
        = (memSrcs instr).take 3 ∧
    (∀ md : module_data_t, host.dr_lookup_module instr.app_pc = some md →
      strstr main_module_name md.preferred_name ≠ none → instr.is_floating = true →
      (regSrcs host instr ≠ [] ∨ memSrcs instr ≠ []) →
      event_app_instruction host main_module_name drcontext reg_ids0 mem_ptrs0 instr
        = switch_n_regs drcontext (selectLoop host (Sel.start reg_ids0 mem_ptrs0) instr.srcs)
          ++ switch_n_mems drcontext
              (selectLoop host (Sel.start reg_ids0 mem_ptrs0) instr.srcs)) ∧
    (∀ dsts : List opnd_t,
      event_app_instruction host main_module_name drcontext reg_ids0 mem_ptrs0
          { instr with dsts := dsts }
        = event_app_instruction host main_module_name drcontext reg_ids0 mem_ptrs0 instr) ∧
    (regSrcs host instr = [] → memSrcs instr = [] →
      event_app_instruction host main_module_name drcontext reg_ids0 mem_ptrs0 instr = []) ∧
    (instr.is_floating = false →
      event_app_instruction host main_module_name drcontext reg_ids0 mem_ptrs0 instr = []) := by
  obtain ⟨r1, r2, m1, m2, _⟩ := selectLoop_start host reg_ids0 mem_ptrs0 instr
  refine ⟨r1, r2, m1, m2, ?_, fun _ => rfl, ?_, ?_⟩
  · intro md hmod hname hfp hf
    rw [event_app_instruction_of_match host main_module_name drcontext reg_ids0 mem_ptrs0 instr
      md hmod hname]
    exact analyse_of_found host drcontext reg_ids0 mem_ptrs0 instr hfp hf
  · intro hr hm
    have ha := analyse_of_not_found host drcontext reg_ids0 mem_ptrs0 instr hr hm
    unfold event_app_instruction
    cases host.dr_lookup_module instr.app_pc with
    | none => rfl
    | some md =>
      dsimp only
      split_ifs
      · rfl
      · exact ha
  · intro hfp
    have ha : analyse host drcontext reg_ids0 mem_ptrs0 instr = [] := by
      unfold analyse
      rw [if_neg (show ¬ instr_is_fp instr = true by unfold instr_is_fp; rw [hfp]; decide)]
    unfold event_app_instruction
    cases host.dr_lookup_module instr.app_pc with
    | none => rfl
    | some md =>
      dsimp only
      split_ifs
      · rfl
      · exact ha

/-- C5 at a floating-point instruction of module `fp` with the sources
`r7, [0x1000], r8, r9, r10, [0x2000]` and the destinations `r1, [0x3000]`:
registers `r7, r8, r9` and both addresses are recorded, whatever the arrays held
before. -/
theorem C5_selection_loop_witness :
    (sampleHost nameFp).dr_lookup_module 4194304 = some ⟨nameFp⟩ ∧
    event_app_instruction (sampleHost nameFp) nameFp 99 ⟨0, 0, 0⟩ ⟨0, 0, 0⟩
        (fpInstr [regOpnd 7, memOpnd 4096, regOpnd 8, regOpnd 9, regOpnd 10, memOpnd 8192]
          [regOpnd 1, memOpnd 12288])
      = switch_n_regs 99 (selectLoop (sampleHost nameFp) (Sel.start ⟨0, 0, 0⟩ ⟨0, 0, 0⟩)
          [regOpnd 7, memOpnd 4096, regOpnd 8, regOpnd 9, regOpnd 10, memOpnd 8192])
        ++ switch_n_mems 99 (selectLoop (sampleHost nameFp) (Sel.start ⟨0, 0, 0⟩ ⟨0, 0, 0⟩)
          [regOpnd 7, memOpnd 4096, regOpnd 8, regOpnd 9, regOpnd 10, memOpnd 8192]) ∧
    (selectLoop (sampleHost nameFp) (Sel.start ⟨0, 0, 0⟩ ⟨0, 0, 0⟩)
          [regOpnd 7, memOpnd 4096, regOpnd 8, regOpnd 9, regOpnd 10, memOpnd 8192]).reg_ids
      = ⟨7, 8, 9⟩ :=
  ⟨rfl,
   (C5_selection_loop (sampleHost nameFp) nameFp 99 ⟨0, 0, 0⟩ ⟨0, 0, 0⟩
      (fpInstr [regOpnd 7, memOpnd 4096, regOpnd 8, regOpnd 9, regOpnd 10, memOpnd 8192]
        [regOpnd 1, memOpnd 12288])).2.2.2.2.1 ⟨nameFp⟩ rfl (by decide) rfl
      (Or.inl (by decide)),
   by decide⟩

/-! ## C6: what the arity-2 directives forward -/

/-- C6 (the code at the failing inputs): for a floating-point instruction of the
target module with the two memory sources `0x1000, 0x2000`, the emitted call of
`callback_fp_mem_2` passes `0x1000` and the never-written `mem_ptrs[2]`, not
`0x2000`; with the two register sources `r3, r5` the call of `callback_fp_reg_2`
names `r3` and the never-written `reg_ids[2]`, not `r5` (both registers are
saved); with the sources `r3, r5, [0x1000]` the register call is again
`(r3, reg_ids[2])`, followed by the call of `callback_fp_mem_1` on `0x1000`. -/
theorem C6_arity_two_passes_slot_two (reg_ids0 mem_ptrs0 : Array3) :
    event_app_instruction (sampleHost nameFp) nameFp 99 reg_ids0 mem_ptrs0
        (fpInstr [memOpnd 4096, memOpnd 8192] [])
      = [.clean_call .callback_fp_mem_2 [99, 4096, mem_ptrs0.a2]] ∧
    event_app_instruction (sampleHost nameFp) nameFp 99 reg_ids0 mem_ptrs0
        (fpInstr [regOpnd 3, regOpnd 5] [])
      = [.save_reg 3 .SPILL_SLOT_11, .save_reg 5 .SPILL_SLOT_12,
         .clean_call .callback_fp_reg_2 [99, 3, reg_ids0.a2]] ∧
    event_app_instruction (sampleHost nameFp) nameFp 99 reg_ids0 mem_ptrs0
        (fpInstr [regOpnd 3, regOpnd 5, memOpnd 4096] [])
      = [.save_reg 3 .SPILL_SLOT_11, .save_reg 5 .SPILL_SLOT_12,
         .clean_call .callback_fp_reg_2 [99, 3, reg_ids0.a2],
         .clean_call .callback_fp_mem_1 [99, 4096]] ∧
    event_app_instruction (sampleHost nameFp) nameFp 99 ⟨0, 0, 0⟩ ⟨0, 0, 0⟩
        (fpInstr [memOpnd 4096, memOpnd 8192] [])
      ≠ [.clean_call .callback_fp_mem_2 [99, 4096, 8192]] :=
  ⟨rfl, rfl, rfl, by decide⟩

/-! ## C7: more than three operands of a kind -/

/-- C7 (counterexample): a floating-point instruction of the target module with
the five pointer-sized register sources `r1 .. r5` gets the arity-3 capture of
`r1, r2, r3` and nothing else: no diagnostic is among the emitted items. -/
theorem C7_counterexample :
    event_app_instruction (sampleHost nameFp) nameFp 99 ⟨0, 0, 0⟩ ⟨0, 0, 0⟩
        (fpInstr [regOpnd 1, regOpnd 2, regOpnd 3, regOpnd 4, regOpnd 5] [])
      = [.save_reg 1 .SPILL_SLOT_11, .save_reg 2 .SPILL_SLOT_12, .save_reg 3 .SPILL_SLOT_13,
         .clean_call .callback_fp_reg_3 [99, 1, 2, 3]] ∧
    ¬ ∃ e ∈ event_app_instruction (sampleHost nameFp) nameFp 99 ⟨0, 0, 0⟩ ⟨0, 0, 0⟩
        (fpInstr [regOpnd 1, regOpnd 2, regOpnd 3, regOpnd 4, regOpnd 5] []),
        e.isDiagnostic = true := by
  decide

/-- C7 (amended): `event_app_instruction` never emits one of the two
`Unsupported number of ...` diagnostics; for a floating-point instruction of the
target module with more than three capturable register sources it emits the
arity-3 register capture of the first three, followed by the memory dispatch, and
with more than three capturable memory sources it emits the register dispatch
followed by the arity-3 memory capture of the first three. -/
theorem C7_truncates_silently (host : Host) (main_module_name : List Char) (drcontext : Nat)
    (reg_ids0 mem_ptrs0 : Array3) (instr : instr_t) :
    (∀ e ∈ event_app_instruction host main_module_name drcontext reg_ids0 mem_ptrs0 instr,
      e.isDiagnostic = false) ∧
    (∀ (md : module_data_t) (a b c d : Nat) (rest : List Nat),
      host.dr_lookup_module instr.app_pc = some md →
      strstr main_module_name md.preferred_name ≠ none → instr.is_floating = true →
      regSrcs host instr = a :: b :: c :: d :: rest →
      event_app_instruction host main_module_name drcontext reg_ids0 mem_ptrs0 instr
        = [.save_reg a .SPILL_SLOT_11, .save_reg b .SPILL_SLOT_12, .save_reg c .SPILL_SLOT_13,
           .clean_call .callback_fp_reg_3 [drcontext, a, b, c]]
          ++ switch_n_mems drcontext
              (selectLoop host (Sel.start reg_ids0 mem_ptrs0) instr.srcs)) ∧
    (∀ (md : module_data_t) (a b c d : Nat) (rest : List Nat),
      host.dr_lookup_module instr.app_pc = some md →
      strstr main_module_name md.preferred_name ≠ none → instr.is_floating = true →
      memSrcs instr = a :: b :: c :: d :: rest →
      event_app_instruction host main_module_name drcontext reg_ids0 mem_ptrs0 instr
        = switch_n_regs drcontext (selectLoop host (Sel.start reg_ids0 mem_ptrs0) instr.srcs)
          ++ [.clean_call .callback_fp_mem_3 [drcontext, a, b, c]]) := by
  obtain ⟨r1, r2, m1, m2, _⟩ := selectLoop_start host reg_ids0 mem_ptrs0 instr
  refine ⟨?_, ?_, ?_⟩
  · intro e he
    exact analyse_no_diagnostic host drcontext reg_ids0 mem_ptrs0 instr e
      (event_app_instruction_subset host main_module_name drcontext reg_ids0 mem_ptrs0 instr e he)
  · intro md a b c d rest hmod hname hfp hsrc
    rw [event_app_instruction_of_match host main_module_name drcontext reg_ids0 mem_ptrs0 instr
      md hmod hname,
      analyse_of_found host drcontext reg_ids0 mem_ptrs0 instr hfp
        (Or.inl (by rw [hsrc]; exact List.cons_ne_nil _ _))]
    rw [hsrc] at r1 r2
    rw [switch_n_regs_three drcontext _ a b c (by rw [r1]; simp) (by rw [r2]; rfl)]
  · intro md a b c d rest hmod hname hfp hsrc
    rw [event_app_instruction_of_match host main_module_name drcontext reg_ids0 mem_ptrs0 instr
      md hmod hname,
      analyse_of_found host drcontext reg_ids0 mem_ptrs0 instr hfp
        (Or.inr (by rw [hsrc]; exact List.cons_ne_nil _ _))]
    rw [hsrc] at m1 m2
    rw [switch_n_mems_three drcontext _ a b c (by rw [m1]; simp) (by rw [m2]; rfl)]

/-- C7 (amended) at a floating-point instruction of module `fp` with the four
memory sources `0x1000, 0x2000, 0x3000, 0x4000`: the arity-3 memory capture of
the first three is emitted. -/
theorem C7_truncates_silently_witness :
    memSrcs (fpInstr [memOpnd 4096, memOpnd 8192, memOpnd 12288, memOpnd 16384] [])
      = [4096, 8192, 12288, 16384] ∧
    event_app_instruction (sampleHost nameFp) nameFp 99 ⟨0, 0, 0⟩ ⟨0, 0, 0⟩
        (fpInstr [memOpnd 4096, memOpnd 8192, memOpnd 12288, memOpnd 16384] [])
      = switch_n_regs 99 (selectLoop (sampleHost nameFp) (Sel.start ⟨0, 0, 0⟩ ⟨0, 0, 0⟩)
          [memOpnd 4096, memOpnd 8192, memOpnd 12288, memOpnd 16384])
        ++ [.clean_call .callback_fp_mem_3 [99, 4096, 8192, 12288]] :=
  ⟨rfl,
   (C7_truncates_silently (sampleHost nameFp) nameFp 99 ⟨0, 0, 0⟩ ⟨0, 0, 0⟩
      (fpInstr [memOpnd 4096, memOpnd 8192, memOpnd 12288, memOpnd 16384] [])).2.2
      ⟨nameFp⟩ 4096 8192 12288 16384 [] rfl (by decide) rfl rfl⟩

/-! ## C8: failed safe reads in the memory callbacks -/

/-- C8: for each of `callback_fp_mem_1`, `callback_fp_mem_2`, `callback_fp_mem_3`,
every prior state and log and every outcome of the safe reads, the accumulator
after the callback is the fold of `update_values` over the values read with
success, in slot order, and the log gains exactly one line per successful read,
in slot order; a failed read adds nothing and does not stop the later slots. -/
theorem C8_memory_callbacks (dr_safe_read : Nat → Option F32) (a1 a2 a3 : Nat) (p : Proc) :
    (callback_fp_mem_1 dr_safe_read a1 p).acc
        = observeAll p.acc ([a1].filterMap dr_safe_read) ∧
    (callback_fp_mem_1 dr_safe_read a1 p).log
        = p.log ++ [("Mem", a1)].filterMap (slotLine dr_safe_read) ∧
    (callback_fp_mem_2 dr_safe_read a1 a2 p).acc
        = observeAll p.acc ([a1, a2].filterMap dr_safe_read) ∧
    (callback_fp_mem_2 dr_safe_read a1 a2 p).log
        = p.log ++ [("Mem1", a1), ("Mem2", a2)].filterMap (slotLine dr_safe_read) ∧
    (callback_fp_mem_3 dr_safe_read a1 a2 a3 p).acc
        = observeAll p.acc ([a1, a2, a3].filterMap dr_safe_read) ∧
    (callback_fp_mem_3 dr_safe_read a1 a2 a3 p).log
        = p.log ++ [("Mem1", a1), ("Mem2", a2), ("Mem3", a3)].filterMap
            (slotLine dr_safe_read) ∧
    ((callback_fp_mem_3 dr_safe_read a1 a2 a3 p).log.length
        = p.log.length + ([a1, a2, a3].filterMap dr_safe_read).length) ∧
    callback_fp_mem_3 readOnly2000 4096 8192 12288 ⟨State.init, []⟩
      = ⟨update_values State.init F32.half, [⟨"Mem2", F32.half⟩]⟩ := by
  refine ⟨?_, ?_, ?_, ?_, ?_, ?_, ?_, by decide⟩ <;>
  cases h1 : dr_safe_read a1 <;> cases h2 : dr_safe_read a2 <;> cases h3 : dr_safe_read a3 <;>
    simp [callback_fp_mem_1, callback_fp_mem_2, callback_fp_mem_3, List.filterMap, slotLine,
      h1, h2, h3, log_and_update, observeAll]

/-! ## C10: the module test -/

theorem startsWith_iff (needle : List Char) :
    ∀ s : List Char, startsWith needle s = true ↔ ∃ post, s = needle ++ post := by
  induction needle with
  | nil => intro s; exact ⟨fun _ => ⟨s, rfl⟩, fun _ => by cases s <;> rfl⟩
  | cons a needle ih =>
    intro s
    cases s with
    | nil =>
      constructor
      · intro h; exact absurd h (by simp [startsWith])
      · rintro ⟨post, hpost⟩; exact absurd hpost (by simp)
    | cons b s =>
      simp only [startsWith, Bool.and_eq_true, beq_iff_eq, ih s, List.cons_append,
        List.cons.injEq]
      constructor
      · rintro ⟨hab, post, hpost⟩
        exact ⟨post, hab.symm, hpost⟩
      · rintro ⟨post, hab, hpost⟩
        exact ⟨hab.symm, post, hpost⟩

/-- The function `strstr` finds the needle exactly when it occurs in the haystack. -/
theorem strstr_ne_none_iff (needle : List Char) :
    ∀ haystack : List Char, strstr haystack needle ≠ none ↔ Occurs needle haystack := by
  intro haystack
  induction haystack with
  | nil =>
    unfold strstr
    constructor
    · intro h
      by_cases hs : startsWith needle [] = true
      · obtain ⟨post, hpost⟩ := (startsWith_iff needle []).mp hs
        exact ⟨[], post, by simpa using hpost⟩
      · rw [if_neg hs] at h
        exact absurd rfl h
    · rintro ⟨pre, post, h⟩
      have hn : needle = [] := by
        have h2 := congrArg List.length h
        simp only [List.length_nil, List.length_append] at h2
        exact List.length_eq_zero.mp (by omega)
      rw [hn]
      simp [startsWith]
  | cons c t ih =>
    unfold strstr
    constructor
    · intro h
      by_cases hs : startsWith needle (c :: t) = true
      · obtain ⟨post, hpost⟩ := (startsWith_iff needle (c :: t)).mp hs
        exact ⟨[], post, by simpa using hpost⟩
      · rw [if_neg hs] at h
        obtain ⟨pre, post, hocc⟩ := ih.mp h
        exact ⟨c :: pre, post, by rw [hocc]; simp⟩
    · rintro ⟨pre, post, h⟩
      by_cases hs : startsWith needle (c :: t) = true
      · rw [if_pos hs]; simp
      · rw [if_neg hs]
        cases pre with
        | nil =>
          exact absurd ((startsWith_iff needle (c :: t)).mpr ⟨post, by simpa using h⟩) hs
        | cons c2 pre =>
          simp only [List.cons_append, List.cons.injEq] at h
          exact ih.mpr ⟨pre, post, h.2⟩

/-- C10 (counterexample): with the configured name `foo` and the module name
`libfoo`, the configured name occurs inside the module name, yet
`event_app_instruction` emits nothing for an instruction that the analysis would
instrument; with the configured name `libfoo` and the module name `foo`, the
configured name does not occur inside the module name, yet the instruction is
analysed and instrumented. -/
theorem C10_counterexample :
    Occurs nameFoo nameLibfoo ∧
    event_app_instruction (sampleHost nameLibfoo) nameFoo 99 ⟨0, 0, 0⟩ ⟨0, 0, 0⟩
        (fpInstr [regOpnd 3] []) = [] ∧
    analyse (sampleHost nameLibfoo) 99 ⟨0, 0, 0⟩ ⟨0, 0, 0⟩ (fpInstr [regOpnd 3] []) ≠ [] ∧
    ¬ Occurs nameLibfoo nameFoo ∧
    event_app_instruction (sampleHost nameFoo) nameLibfoo 99 ⟨0, 0, 0⟩ ⟨0, 0, 0⟩
        (fpInstr [regOpnd 3] [])
      = [.save_reg 3 .SPILL_SLOT_11, .clean_call .callback_fp_reg_1 [99, 3]] := by
  refine ⟨⟨['l', 'i', 'b'], [], rfl⟩, by decide, by decide, ?_, by decide⟩
  rw [← strstr_ne_none_iff]
  decide

/-- C10 (amended): when the instruction's address belongs to a module,
`event_app_instruction` goes on to analyse the instruction if and only if the
module's preferred name occurs as a substring inside the configured name
`main_module_name`; otherwise, and when the address belongs to no module, it
emits nothing. -/
theorem C10_module_name_inside_configured (host : Host) (main_module_name : List Char)
    (drcontext : Nat) (reg_ids0 mem_ptrs0 : Array3) (instr : instr_t) :
    (∀ md : module_data_t, host.dr_lookup_module instr.app_pc = some md →
      Occurs md.preferred_name main_module_name →
      event_app_instruction host main_module_name drcontext reg_ids0 mem_ptrs0 instr
        = analyse host drcontext reg_ids0 mem_ptrs0 instr) ∧
    (∀ md : module_data_t, host.dr_lookup_module instr.app_pc = some md →
      ¬ Occurs md.preferred_name main_module_name →
      event_app_instruction host main_module_name drcontext reg_ids0 mem_ptrs0 instr = []) ∧
    (host.dr_lookup_module instr.app_pc = none →
      event_app_instruction host main_module_name drcontext reg_ids0 mem_ptrs0 instr = []) := by
  refine ⟨?_, ?_, ?_⟩
  · intro md hmod hocc
    exact event_app_instruction_of_match host main_module_name drcontext reg_ids0 mem_ptrs0
      instr md hmod ((strstr_ne_none_iff _ _).mpr hocc)
  · intro md hmod hocc
    have hnone : strstr main_module_name md.preferred_name = none := by
      by_contra hne
      exact hocc ((strstr_ne_none_iff _ _).mp hne)
    unfold event_app_instruction
    rw [hmod]
    exact if_pos hnone
  · intro hmod
    unfold event_app_instruction
    rw [hmod]

/-- C10 (amended) at the configured name `libfoo` and the module name `foo`:
the module name occurs inside the configured name and the instruction is
analysed. -/
theorem C10_module_name_inside_configured_witness :
    (sampleHost nameFoo).dr_lookup_module 4194304 = some ⟨nameFoo⟩ ∧
    Occurs nameFoo nameLibfoo ∧
    event_app_instruction (sampleHost nameFoo) nameLibfoo 99 ⟨0, 0, 0⟩ ⟨0, 0, 0⟩
        (fpInstr [regOpnd 3] [])
      = analyse (sampleHost nameFoo) 99 ⟨0, 0, 0⟩ ⟨0, 0, 0⟩ (fpInstr [regOpnd 3] []) :=
  ⟨rfl, ⟨['l', 'i', 'b'], [], rfl⟩,
   (C10_module_name_inside_configured (sampleHost nameFoo) nameLibfoo 99 ⟨0, 0, 0⟩ ⟨0, 0, 0⟩
      (fpInstr [regOpnd 3] [])).1 ⟨nameFoo⟩ rfl ⟨['l', 'i', 'b'], [], rfl⟩⟩

end Fpvals
